import Mathlib

/-!
Verification of the Agents-Stock repository's statistical and glue routines.

The definitions below are shallow embeddings of the Python source:
* machine floats are modelled as exact rationals, with IEEE-754 infinities and
  NaN made explicit where the pandas code can produce them (`PF`);
* `round`, `np.round` and pandas `.round` are banker's rounding (half to even),
  modelled by `rhe`;
* fallible code paths return `Option`/explicit error constructors.
-/

set_option maxRecDepth 4000

/-! ## Rounding: Python `round`, `np.round`, pandas `.round` use half-to-even -/

/-- Round half to even, the rounding mode of Python's `round` and `np.round`. -/
def rhe {α : Type} [LinearOrderedField α] [FloorRing α] (x : α) : ℤ :=
  if x - ⌊x⌋ < 1/2 then ⌊x⌋
  else if 1/2 < x - ⌊x⌋ then ⌊x⌋ + 1
  else if Even ⌊x⌋ then ⌊x⌋ else ⌊x⌋ + 1

/-- Python `np.round(x, 1)` / `round(x, 1)` as an exact operation. -/
def round1 {α : Type} [LinearOrderedField α] [FloorRing α] (x : α) : α :=
  (rhe (x * 10) : α) / 10

/-- Python `np.round(x, 2)` / pandas `.round(2)` as an exact operation. -/
def round2 {α : Type} [LinearOrderedField α] [FloorRing α] (x : α) : α :=
  (rhe (x * 100) : α) / 100

theorem abs_rhe_sub_le {α : Type} [LinearOrderedField α] [FloorRing α] (x : α) :
    |(rhe x : α) - x| ≤ 1/2 := by
  unfold rhe
  have h1 : (⌊x⌋ : α) ≤ x := Int.floor_le x
  have h2 : x < ⌊x⌋ + 1 := Int.lt_floor_add_one x
  split
  · rw [abs_le]
    constructor <;> linarith
  · split
    · rw [abs_le]
      push_cast
      constructor <;> linarith
    · split
      · rw [abs_le]
        constructor <;> linarith
      · rw [abs_le]
        push_cast
        constructor <;> linarith

theorem rhe_ge_floor {α : Type} [LinearOrderedField α] [FloorRing α] (x : α) :
    ⌊x⌋ ≤ rhe x := by
  unfold rhe
  split
  · omega
  · split
    · omega
    · split <;> omega

theorem rhe_le_floor_add_one {α : Type} [LinearOrderedField α] [FloorRing α] (x : α) :
    rhe x ≤ ⌊x⌋ + 1 := by
  unfold rhe
  split
  · omega
  · split
    · omega
    · split <;> omega

theorem rhe_mono {α : Type} [LinearOrderedField α] [FloorRing α] {x y : α}
    (h : x ≤ y) : rhe x ≤ rhe y := by
  have hf : ⌊x⌋ ≤ ⌊y⌋ := Int.floor_le_floor h
  rcases eq_or_lt_of_le hf with heq | hlt
  · unfold rhe
    rw [← heq]
    have hxy : x - (⌊x⌋ : α) ≤ y - (⌊x⌋ : α) := by linarith
    by_cases h1 : x - (⌊x⌋ : α) < 1/2
    · simp only [if_pos h1]
      split
      · omega
      · split
        · omega
        · split <;> omega
    · have h1' : ¬ (y - (⌊x⌋ : α) < 1/2) := by
        push_neg at h1 ⊢
        linarith
      simp only [if_neg h1, if_neg h1']
      by_cases h2 : 1/2 < x - (⌊x⌋ : α)
      · have h2' : 1/2 < y - (⌊x⌋ : α) := lt_of_lt_of_le h2 hxy
        simp only [if_pos h2, if_pos h2']
        omega
      · simp only [if_neg h2]
        by_cases h2' : 1/2 < y - (⌊x⌋ : α)
        · simp only [if_pos h2']
          split <;> omega
        · simp only [if_neg h2']
          split <;> omega
  · calc rhe x ≤ ⌊x⌋ + 1 := rhe_le_floor_add_one x
    _ ≤ ⌊y⌋ := by omega
    _ ≤ rhe y := rhe_ge_floor y

theorem abs_round1_sub_le {α : Type} [LinearOrderedField α] [FloorRing α] (x : α) :
    |round1 x - x| ≤ 1/20 := by
  unfold round1
  have h := abs_rhe_sub_le (x * 10)
  rw [abs_le] at h ⊢
  constructor <;> [linarith [h.1]; linarith [h.2]]

theorem abs_round2_sub_le {α : Type} [LinearOrderedField α] [FloorRing α] (x : α) :
    |round2 x - x| ≤ 1/200 := by
  unfold round2
  have h := abs_rhe_sub_le (x * 100)
  rw [abs_le] at h ⊢
  constructor <;> [linarith [h.1]; linarith [h.2]]

theorem round1_mono {α : Type} [LinearOrderedField α] [FloorRing α] {x y : α}
    (h : x ≤ y) : round1 x ≤ round1 y := by
  unfold round1
  have := rhe_mono (α := α) (x := x * 10) (y := y * 10) (by linarith)
  have hc : ((rhe (x * 10) : ℤ) : α) ≤ ((rhe (y * 10) : ℤ) : α) := by exact_mod_cast this
  linarith

/-! ## `PF`: a pandas/NumPy float64 cell, modelled as an exact rational
extended with the IEEE-754 special values that the code can produce. -/

/-- A pandas float64 value: an exact rational, `+inf`, `-inf`, or `NaN`.
Finite arithmetic is modelled exactly; the special values follow IEEE-754. -/
inductive PF where
  | num (q : ℚ)
  | inf
  | ninf
  | nan
  deriving DecidableEq, Repr, Inhabited

namespace PF

def isNan : PF → Bool
  | nan => true
  | _ => false

/-- IEEE-754 addition (exact in the finite case). -/
def add : PF → PF → PF
  | nan, _ => nan
  | _, nan => nan
  | num a, num b => num (a + b)
  | num _, inf => inf
  | num _, ninf => ninf
  | inf, num _ => inf
  | ninf, num _ => ninf
  | inf, inf => inf
  | ninf, ninf => ninf
  | inf, ninf => nan
  | ninf, inf => nan

/-- IEEE-754 multiplication (exact in the finite case). -/
def mul : PF → PF → PF
  | nan, _ => nan
  | _, nan => nan
  | num a, num b => num (a * b)
  | num a, inf => if 0 < a then inf else if a < 0 then ninf else nan
  | num a, ninf => if 0 < a then ninf else if a < 0 then inf else nan
  | inf, num b => if 0 < b then inf else if b < 0 then ninf else nan
  | ninf, num b => if 0 < b then ninf else if b < 0 then inf else nan
  | inf, inf => inf
  | ninf, ninf => inf
  | inf, ninf => ninf
  | ninf, inf => ninf

/-- IEEE-754 division (exact in the finite case); NumPy's `x/0` follows the
same rules (`0/0 = NaN`, `a/0 = ±inf` by the sign of `a`). -/
def div : PF → PF → PF
  | nan, _ => nan
  | _, nan => nan
  | num a, num b =>
      if b = 0 then (if a = 0 then nan else if 0 < a then inf else ninf)
      else num (a / b)
  | num _, inf => num 0
  | num _, ninf => num 0
  | inf, num b => if b < 0 then ninf else inf
  | ninf, num b => if b < 0 then inf else ninf
  | inf, inf => nan
  | inf, ninf => nan
  | ninf, inf => nan
  | ninf, ninf => nan

/-- pandas `.round(2)` on a cell: special values pass through. -/
def roundCell2 : PF → PF
  | num q => num (round2 q)
  | inf => inf
  | ninf => ninf
  | nan => nan

/-- pandas `.round(1)` on a cell: special values pass through. -/
def roundCell1 : PF → PF
  | num q => num (round1 q)
  | inf => inf
  | ninf => ninf
  | nan => nan

/-- pandas `.fillna(0)` on a cell: only NaN is replaced (infinities stay). -/
def fillna0 : PF → PF
  | nan => num 0
  | v => v

theorem fillna0_ne_nan (v : PF) : fillna0 v ≠ nan := by
  cases v <;> simp [fillna0]

end PF

/-! ## C1: `get_api_key` (src/fundamental.py and src/pe.py) -/

/-- The ambient configuration state consulted by `get_api_key`:
the `GEMINI_API_KEY` entry of `st.secrets` (if any), the raw value of the
`GEMINI_API_KEY` environment variable (if set), and the parsed contents of
`config.json` (`none` when the file is missing or not valid JSON). -/
structure KeyEnv where
  secrets : Option String
  envVar : Option String
  configJson : Option (List (String × String))

/-- Python `dict.get(key)` on a flat string map (first matching key). -/
def dictGet (kvs : List (String × String)) (k : String) : Option String :=
  (kvs.find? (fun p => p.1 = k)).map (fun p => p.2)

/-- Embeds `get_api_key` from `src/fundamental.py`: checks `st.secrets`, then the
environment variable (Python truthiness: the empty string is falsy), then
`config.json` via `dict.get` (returns `None` when the key is absent, and on
`FileNotFoundError`/`JSONDecodeError`). -/
def get_api_key (e : KeyEnv) : Option String :=
  match e.secrets with
  | some v => some v
  | none =>
    match e.envVar with
    | some s =>
      if s ≠ "" then some s
      else match e.configJson with
        | some kvs => dictGet kvs "GEMINI_API_KEY"
        | none => none
    | none =>
      match e.configJson with
      | some kvs => dictGet kvs "GEMINI_API_KEY"
      | none => none

/-- Embeds `get_api_key` from `src/pe.py`: same precedence, but the fallbacks return
the empty string (`os.getenv(..., "")`, `cfg.get(..., "")`, bare `except`). -/
def get_api_key_pe (e : KeyEnv) : String :=
  match e.secrets with
  | some v => v
  | none =>
    match e.envVar with
    | some s =>
      if s ≠ "" then s
      else match e.configJson with
        | some kvs => (dictGet kvs "GEMINI_API_KEY").getD ""
        | none => ""
    | none =>
      match e.configJson with
      | some kvs => (dictGet kvs "GEMINI_API_KEY").getD ""
      | none => ""

/-- C1 counterexample: with `config.json` containing `GEMINI_API_KEY = "CFG"`,
the environment variable set to `"ENV"` and the secrets store holding
`"SECRET"`, `get_api_key` returns the secrets value, not the `config.json`
value — the claimed precedence (config.json first) is the reverse of the code. -/
theorem c1_counterexample :
    get_api_key ⟨some "SECRET", some "ENV", some [("GEMINI_API_KEY", "CFG")]⟩
      = some "SECRET" ∧
    get_api_key ⟨some "SECRET", some "ENV", some [("GEMINI_API_KEY", "CFG")]⟩
      ≠ some "CFG" := by
  constructor
  · rfl
  · decide

/-- C1 (amended): `get_api_key` resolves the key by consulting, in order of
precedence, the Streamlit secrets store, then the `GEMINI_API_KEY` environment
variable (when non-empty), then the local `config.json`; in particular,
whenever the secrets store contains a `GEMINI_API_KEY` entry, that value is the
one returned regardless of the environment variable or the config file. Both
`src/fundamental.py` and `src/pe.py` behave this way. -/
theorem c1_amended (e : KeyEnv) :
    (∀ v, e.secrets = some v → get_api_key e = some v ∧ get_api_key_pe e = v) ∧
    (e.secrets = none → ∀ s, e.envVar = some s → s ≠ "" →
      get_api_key e = some s ∧ get_api_key_pe e = s) ∧
    (e.secrets = none → (e.envVar = none ∨ e.envVar = some "") →
      get_api_key e = (e.configJson.bind (fun kvs => dictGet kvs "GEMINI_API_KEY"))) := by
  obtain ⟨sec, env, cfg⟩ := e
  refine ⟨?_, ?_, ?_⟩
  · rintro v rfl
    exact ⟨rfl, rfl⟩
  · rintro rfl s rfl hs
    simp [get_api_key, get_api_key_pe, hs]
  · rintro rfl h
    rcases h with h | h <;> subst h <;> cases cfg <;> simp [get_api_key]

/-- C1 amended, instantiated: the secrets value wins on a concrete state. -/
theorem c1_amended_witness :
    get_api_key ⟨some "S", some "E", some [("GEMINI_API_KEY", "C")]⟩ = some "S" :=
  ((c1_amended ⟨some "S", some "E", some [("GEMINI_API_KEY", "C")]⟩).1 "S" rfl).1

/-! ## JSON values and a model of Python's `json.loads` -/

/-- A parsed JSON value (`json.loads` result). Numbers are exact rationals. -/
inductive Json where
  | null
  | bool (b : Bool)
  | num (q : ℚ)
  | str (s : String)
  | arr (xs : List Json)
  | obj (kvs : List (String × Json))
  deriving Repr, Inhabited

/-- Python dict lookup on the key/value list of a parsed JSON object:
with duplicate keys the later entry wins, as in a Python dict built by
`json.loads`. -/
def objFind (kvs : List (String × Json)) (k : String) : Option Json :=
  ((kvs.reverse).find? (fun p => p.1 = k)).map (fun p => p.2)

/-- Python `x.get(key, default)` on a parsed JSON value: `none` models the
`AttributeError` raised when `x` is not a dict. -/
def pyDictGet (j : Json) (k : String) (dflt : Json) : Option Json :=
  match j with
  | Json.obj kvs => some ((objFind kvs k).getD dflt)
  | _ => none

def skipWs (cs : List Char) : List Char := cs.dropWhile (fun c => c.isWhitespace)

def digitVal (c : Char) : ℕ := c.toNat - '0'.toNat

def digitsVal (ds : List Char) : ℕ := ds.foldl (fun a c => a * 10 + digitVal c) 0

/-- One character of a JSON string body; returns the decoded character(s)
and the remaining input, handling the JSON escape sequences. -/
def isHex (c : Char) : Bool :=
  c.isDigit || ('a' ≤ c && c ≤ 'f') || ('A' ≤ c && c ≤ 'F')

def parseStrChars : List Char → Option (List Char × List Char)
  | [] => none
  | '"' :: rest => some ([], rest)
  | '\\' :: esc => match esc with
    | '"' :: r => (parseStrChars r).map (fun p => ('"' :: p.1, p.2))
    | '\\' :: r => (parseStrChars r).map (fun p => ('\\' :: p.1, p.2))
    | '/' :: r => (parseStrChars r).map (fun p => ('/' :: p.1, p.2))
    | 'b' :: r => (parseStrChars r).map (fun p => ('\x08' :: p.1, p.2))
    | 'f' :: r => (parseStrChars r).map (fun p => ('\x0c' :: p.1, p.2))
    | 'n' :: r => (parseStrChars r).map (fun p => ('\n' :: p.1, p.2))
    | 'r' :: r => (parseStrChars r).map (fun p => ('\r' :: p.1, p.2))
    | 't' :: r => (parseStrChars r).map (fun p => ('\t' :: p.1, p.2))
    | 'u' :: h1 :: h2 :: h3 :: h4 :: r =>
      if isHex h1 && isHex h2 && isHex h3 && isHex h4 then
        let n := [h1, h2, h3, h4].foldl (fun a c =>
          a * 16 + (if c.isDigit then digitVal c
                    else if 'a' ≤ c && c ≤ 'f' then c.toNat - 'a'.toNat + 10
                    else c.toNat - 'A'.toNat + 10)) 0
        (parseStrChars r).map (fun p => (Char.ofNat n :: p.1, p.2))
      else none
    | _ => none
  | c :: rest => (parseStrChars rest).map (fun p => (c :: p.1, p.2))

/-- The integer part of a JSON number: `0`, or a nonzero digit followed by
digits (JSON forbids leading zeros, as does `json.loads`). -/
def parseIntPart : List Char → Option (ℕ × List Char)
  | '0' :: r => some (0, r)
  | c :: r =>
    if c.isDigit && c ≠ '0' then
      let ds := r.takeWhile (fun d => d.isDigit)
      some (digitsVal (c :: ds), r.dropWhile (fun d => d.isDigit))
    else none
  | [] => none

/-- The optional fraction part of a JSON number. -/
def parseFracPart : List Char → Option (ℚ × List Char)
  | '.' :: r =>
    let ds := r.takeWhile (fun d => d.isDigit)
    if ds.isEmpty then none
    else some ((digitsVal ds : ℚ) / (10 : ℚ) ^ ds.length, r.dropWhile (fun d => d.isDigit))
  | cs => some (0, cs)

/-- The optional exponent part of a JSON number. -/
def parseExpPart : List Char → Option (ℤ × List Char)
  | c :: r =>
    if c = 'e' || c = 'E' then
      let (sgn, r1) : ℤ × List Char := match r with
        | '+' :: r2 => (1, r2)
        | '-' :: r2 => (-1, r2)
        | _ => (1, r)
      let ds := r1.takeWhile (fun d => d.isDigit)
      if ds.isEmpty then none
      else some (sgn * (digitsVal ds : ℤ), r1.dropWhile (fun d => d.isDigit))
    else some (0, c :: r)
  | [] => some (0, [])

def pow10 (e : ℤ) : ℚ :=
  if 0 ≤ e then (10 : ℚ) ^ e.toNat else 1 / (10 : ℚ) ^ (-e).toNat

/-- A JSON number (the only remaining alternative after literals/strings/
containers have been tried). -/
def parseNum (cs : List Char) : Option (Json × List Char) :=
  let (neg, cs1) : Bool × List Char := match cs with
    | '-' :: r => (true, r)
    | _ => (false, cs)
  match parseIntPart cs1 with
  | none => none
  | some (iv, cs2) =>
    match parseFracPart cs2 with
    | none => none
    | some (fv, cs3) =>
      match parseExpPart cs3 with
      | none => none
      | some (ev, cs4) =>
        let mag : ℚ := ((iv : ℚ) + fv) * pow10 ev
        some (Json.num (if neg then -mag else mag), cs4)

mutual

/-- Recursive-descent JSON value parser (fuel-indexed; `jsonLoadsChars`
supplies enough fuel for any input). -/
def parseValue : ℕ → List Char → Option (Json × List Char)
  | 0, _ => none
  | fuel + 1, cs =>
    match skipWs cs with
    | [] => none
    | c :: rest =>
      if c = '"' then
        (parseStrChars rest).map (fun p => (Json.str (List.asString p.1), p.2))
      else if c = '[' then
        match skipWs rest with
        | ']' :: r => some (Json.arr [], r)
        | _ => (parseItems fuel rest).map (fun p => (Json.arr p.1, p.2))
      else if c = '\x7b' then
        match skipWs rest with
        | '\x7d' :: r => some (Json.obj [], r)
        | _ => (parseMembers fuel rest).map (fun p => (Json.obj p.1, p.2))
      else if c = 't' then
        match rest with
        | 'r' :: 'u' :: 'e' :: r => some (Json.bool true, r)
        | _ => none
      else if c = 'f' then
        match rest with
        | 'a' :: 'l' :: 's' :: 'e' :: r => some (Json.bool false, r)
        | _ => none
      else if c = 'n' then
        match rest with
        | 'u' :: 'l' :: 'l' :: r => some (Json.null, r)
        | _ => none
      else parseNum (c :: rest)

/-- Comma-separated array items, up to and including the closing bracket. -/
def parseItems : ℕ → List Char → Option (List Json × List Char)
  | 0, _ => none
  | fuel + 1, cs =>
    match parseValue fuel cs with
    | none => none
    | some (v, r) =>
      match skipWs r with
      | ',' :: r2 => (parseItems fuel r2).map (fun p => (v :: p.1, p.2))
      | ']' :: r2 => some ([v], r2)
      | _ => none

/-- Comma-separated object members, up to and including the closing brace. -/
def parseMembers : ℕ → List Char → Option (List (String × Json) × List Char)
  | 0, _ => none
  | fuel + 1, cs =>
    match skipWs cs with
    | '"' :: rest =>
      match parseStrChars rest with
      | none => none
      | some (k, r) =>
        match skipWs r with
        | ':' :: r2 =>
          match parseValue fuel r2 with
          | none => none
          | some (v, r3) =>
            match skipWs r3 with
            | ',' :: r4 => (parseMembers fuel r4).map (fun p => ((List.asString k, v) :: p.1, p.2))
            | '\x7d' :: r4 => some ([(List.asString k, v)], r4)
            | _ => none
        | _ => none
    | _ => none

end

/-- Python `json.loads` on a character list: parse one value and require that only
whitespace remains (otherwise Python raises "Extra data"). `none` models the
`json.JSONDecodeError`. -/
def jsonLoadsChars (cs : List Char) : Option Json :=
  match parseValue (2 * cs.length + 2) cs with
  | some (j, rest) => if (skipWs rest).isEmpty then some j else none
  | none => none

/-- Python `json.loads` on a string. -/
def jsonLoads (s : String) : Option Json := jsonLoadsChars s.toList

/-! ## C2: AI response parsing
(`FundamentalAnalyst.parse_response`, `PEValuationAnalyst._parse_response`) -/

/-- The `AnalysisResponse` dataclass. Fields that the Python code can fill
with arbitrary JSON values are typed `Json`. -/
structure AnalysisResponse where
  recommendation : Json
  confidence_level : ℚ
  data_quality : ℚ
  key_points : Json
  concerns : Json
  content : Json
  deriving Repr

/-- Python `text.find` of the opening brace: index of the first occurrence, if any. -/
def firstIdxOf (c : Char) (cs : List Char) : Option ℕ := cs.findIdx? (fun d => d = c)

/-- Python `text.rfind` of the closing brace: index of the last occurrence, if any. -/
def lastIdxOf (c : Char) (cs : List Char) : Option ℕ :=
  (cs.reverse.findIdx? (fun d => d = c)).map (fun i => cs.length - 1 - i)

/-- The substring `text[text.find('{') : text.rfind('}') + 1]` taken by both
response parsers; `none` models the `ValueError` raised when a brace is
missing or the last `closing brace` precedes the first `opening brace`. -/
def extractBraces (cs : List Char) : Option (List Char) :=
  match firstIdxOf '\x7b' cs with
  | none => none
  | some s =>
    match lastIdxOf '\x7d' cs with
    | none => none
    | some e => if e + 1 ≤ s then none else some ((cs.drop s).take (e + 1 - s))

/-- Python `float(x)` on a parsed JSON value: numbers pass through, booleans
are 0/1, numeric strings are parsed; `none` models the
`TypeError`/`ValueError` on anything else. -/
def floatPy (j : Json) : Option ℚ :=
  match j with
  | Json.num q => some q
  | Json.bool b => some (if b then 1 else 0)
  | Json.str s =>
    match parseNum s.trim.toList with
    | some (Json.num q, []) => some q
    | _ => none
  | _ => none

/-- The success path of `FundamentalAnalyst.parse_response` after
`json.loads`: field lookups with defaults; `none` models the
`AttributeError`/`ValueError` (caught by the enclosing `except`) when an
intermediate value is not a dict or `completeness` is not numeric. -/
def buildResponse (data : Json) : Option AnalysisResponse := do
  let strat ← pyDictGet data "strategy_recommendation" (Json.obj [])
  let action ← pyDictGet strat "action" (Json.str "N/A")
  let dq1 ← pyDictGet data "data_quality" (Json.obj [])
  let conf ← pyDictGet dq1 "confidence_level" (Json.str "Trung bình")
  let confScore : ℚ := match conf with
    | Json.str s => if s = "Cao" then 80 else if s = "Trung bình" then 50 else 20
    | _ => 20
  let dq2 ← pyDictGet data "data_quality" (Json.obj [])
  let dq ← pyDictGet dq2 "completeness" (Json.num 50)
  let dqv ← floatPy dq
  let kp ← pyDictGet data "key_highlights" (Json.arr [])
  let conc ← pyDictGet data "risk_factors" (Json.arr [])
  pure ⟨action, confScore, dqv, kp, conc, data⟩

/-- The error fallback of `FundamentalAnalyst.parse_response` (the Python
exception text inside `key_points` is abstracted to a fixed message). -/
def errorResponse (t : String) : AnalysisResponse :=
  ⟨Json.str "PARSE_ERROR", 0, 0,
    Json.arr [Json.str "Parse error"],
    Json.arr [Json.str "Invalid AI response"],
    Json.obj [("raw", Json.str t)]⟩

/-- Embeds `FundamentalAnalyst.parse_response` (src/src/agents/fundamental_analyst.py
lines 223-252): take the substring from the first `opening brace` to the last
`closing brace`, `json.loads` it, extract the fields; any failure yields the
PARSE_ERROR response. -/
def parse_response (t : String) : AnalysisResponse :=
  ((extractBraces t.toList).bind (fun sub =>
    (jsonLoadsChars sub).bind buildResponse)).getD (errorResponse t)

/-- The success path of `PEValuationAnalyst._parse_response`:
`reliability_score` is used only when it is a number (`isinstance` check,
booleans being `int` in Python), otherwise 50. -/
def buildResponsePe (data : Json) : Option AnalysisResponse := do
  let strat ← pyDictGet data "strategy_recommendation" (Json.obj [])
  let reco ← pyDictGet strat "reasoning" (Json.str "N/A")
  let rel ← pyDictGet data "reliability_score" (Json.num 50)
  let conf : ℚ := match rel with
    | Json.num q => q
    | Json.bool b => if b then 1 else 0
    | _ => 50
  let kp ← pyDictGet data "key_highlights" (Json.arr [])
  let conc ← pyDictGet data "risk_factors" (Json.arr [])
  pure ⟨reco, conf, 50, kp, conc, data⟩

/-- The error fallback of `PEValuationAnalyst._parse_response` (exception
texts abstracted to fixed messages). -/
def errorResponsePe (t : String) : AnalysisResponse :=
  ⟨Json.str "PARSE_ERROR", 0, 0,
    Json.arr [Json.str "Loi parse response"],
    Json.arr [Json.str "AI response khong hop le"],
    Json.obj [("error", Json.str "parse error"), ("raw_response", Json.str t)]⟩

/-- Embeds `PEValuationAnalyst._parse_response` (src/src/agents/pe_valuation_analyst.py
lines 184-214). -/
def parse_response_pe (t : String) : AnalysisResponse :=
  ((extractBraces t.toList).bind (fun sub =>
    (jsonLoadsChars sub).bind buildResponsePe)).getD (errorResponsePe t)

/-- Modelled from the spec: "the system extracts the first balanced `{...}`
substring". Scans from the first `opening brace`, tracking nesting depth. -/
def balancedLen : List Char → ℕ → ℕ → Option ℕ
  | [], _, _ => none
  | c :: r, depth, acc =>
    if c = '\x7b' then balancedLen r (depth + 1) (acc + 1)
    else if c = '\x7d' then
      (if depth = 1 then some (acc + 1) else balancedLen r (depth - 1) (acc + 1))
    else balancedLen r depth (acc + 1)

/-- Modelled from the spec: the first balanced `{...}` substring of a text. -/
def firstBalanced (cs : List Char) : Option (List Char) :=
  match firstIdxOf '\x7b' cs with
  | none => none
  | some s => (balancedLen (cs.drop s) 0 0).map (fun len => (cs.drop s).take len)

/-- The concrete AI response text used to refute C2. -/
def c2text : String := "\x7b\"a\": 1\x7d and \x7b\"b\": 2\x7d"

theorem buildResponse_content (d : Json) (r : AnalysisResponse)
    (h : buildResponse d = some r) : r.content = d := by
  unfold buildResponse at h
  rcases Option.bind_eq_some.mp h with ⟨a1, _, h⟩
  rcases Option.bind_eq_some.mp h with ⟨a2, _, h⟩
  rcases Option.bind_eq_some.mp h with ⟨a3, _, h⟩
  rcases Option.bind_eq_some.mp h with ⟨a4, _, h⟩
  rcases Option.bind_eq_some.mp h with ⟨a5, _, h⟩
  rcases Option.bind_eq_some.mp h with ⟨a6, _, h⟩
  rcases Option.bind_eq_some.mp h with ⟨a7, _, h⟩
  rcases Option.bind_eq_some.mp h with ⟨a8, _, h⟩
  rcases Option.bind_eq_some.mp h with ⟨a9, _, h⟩
  cases h
  rfl

theorem buildResponsePe_content (d : Json) (r : AnalysisResponse)
    (h : buildResponsePe d = some r) : r.content = d := by
  unfold buildResponsePe at h
  rcases Option.bind_eq_some.mp h with ⟨a1, _, h⟩
  rcases Option.bind_eq_some.mp h with ⟨a2, _, h⟩
  rcases Option.bind_eq_some.mp h with ⟨a3, _, h⟩
  rcases Option.bind_eq_some.mp h with ⟨a4, _, h⟩
  rcases Option.bind_eq_some.mp h with ⟨a5, _, h⟩
  cases h
  rfl

/-- C2 counterexample: on a response whose first balanced `{...}` substring is
valid JSON but which contains a second object later, the code does not parse
that substring: it takes everything from the first `opening brace` to the last
`closing brace` (which is not valid JSON) and falls back to the PARSE_ERROR
response. -/
theorem c2_counterexample :
    (∃ j, (firstBalanced c2text.toList).bind jsonLoadsChars = some j) ∧
    parse_response c2text = errorResponse c2text ∧
    (errorResponse c2text).recommendation = Json.str "PARSE_ERROR" := by
  refine ⟨⟨Json.obj [("a", Json.num 1)], ?_⟩, ?_, rfl⟩
  · with_unfolding_all rfl
  · with_unfolding_all rfl

/-- C2 (amended): both response parsers extract the substring from the first
`opening brace` to the last `closing brace` of the text (not the first balanced
substring) and parse it as JSON; on any failure — missing braces, invalid
JSON, or malformed fields — they return the fixed PARSE_ERROR response rather
than raising. -/
theorem c2_amended (t : String) :
    (parse_response t = errorResponse t ∨
      ∃ sub j r, extractBraces t.toList = some sub ∧ jsonLoadsChars sub = some j ∧
        buildResponse j = some r ∧ parse_response t = r ∧ r.content = j) ∧
    (parse_response_pe t = errorResponsePe t ∨
      ∃ sub j r, extractBraces t.toList = some sub ∧ jsonLoadsChars sub = some j ∧
        buildResponsePe j = some r ∧ parse_response_pe t = r ∧ r.content = j) := by
  constructor
  · rcases h : (extractBraces t.toList).bind (fun sub => (jsonLoadsChars sub).bind buildResponse)
      with _ | r
    · left
      unfold parse_response
      rw [h]
      rfl
    · right
      rcases Option.bind_eq_some.mp h with ⟨sub, hsub, h2⟩
      rcases Option.bind_eq_some.mp h2 with ⟨j, hj, hr⟩
      exact ⟨sub, j, r, hsub, hj, hr, by unfold parse_response; rw [h]; rfl,
        buildResponse_content j r hr⟩
  · rcases h : (extractBraces t.toList).bind (fun sub => (jsonLoadsChars sub).bind buildResponsePe)
      with _ | r
    · left
      unfold parse_response_pe
      rw [h]
      rfl
    · right
      rcases Option.bind_eq_some.mp h with ⟨sub, hsub, h2⟩
      rcases Option.bind_eq_some.mp h2 with ⟨j, hj, hr⟩
      exact ⟨sub, j, r, hsub, hj, hr, by unfold parse_response_pe; rw [h]; rfl,
        buildResponsePe_content j r hr⟩

/-! ## C4: `parse_json_from_markdown` (src/fundamental.py lines 84-97) -/

/-- Does the text contain a run of six consecutive backticks? This is exactly
when `re.search` finds the literal pattern of the source (the regex in the
code is six literal backticks with no capture group). `cnt` counts the
current run. -/
def btRun : List Char → ℕ → Bool
  | [], _ => false
  | c :: rest, cnt =>
    let cnt2 := if c = Char.ofNat 96 then cnt + 1 else 0
    if 6 ≤ cnt2 then true else btRun rest cnt2

def containsSixBackticks (t : String) : Bool := btRun t.toList 0

/-- The raw-text payload of the `st.write` call on the error path:
`text[:500] + "..." if len(text) > 500 else text`. -/
def shownRaw (cs : List Char) : List Char :=
  if 500 < cs.length then cs.take 500 ++ ['.', '.', '.'] else cs

/-- Result of `parse_json_from_markdown`: either an uncaught Python exception
or a returned value together with the raw-text payloads written on screen. -/
inductive MdResult where
  | raised (msg : String)
  | ok (j : Json) (shown : List (List Char))
  deriving Repr

/-- Embeds `parse_json_from_markdown`: the regex is the literal six-backtick string,
so a match has no group 1 and `match.group(1)` raises an uncaught
`IndexError` (the `except` clause catches only `JSONDecodeError` and
`AttributeError`). Otherwise the `replace` of the six-backtick literal is the
identity and the stripped text goes to `json.loads`; on failure the function
shows the (truncated) raw text and returns the empty dict. The
`JSONDecodeError` message shown by `st.error` is abstracted away; only the
`st.write` raw-text payload is recorded. -/
def parse_json_from_markdown (t : String) : MdResult :=
  if containsSixBackticks t then MdResult.raised "IndexError: no such group"
  else
    match jsonLoads t.trim with
    | some j => MdResult.ok j []
    | none => MdResult.ok (Json.obj []) [shownRaw t.toList]

/-- The six-backtick input on which the claim fails. -/
def c4text : String := String.mk (List.replicate 6 (Char.ofNat 96))

/-- C4 counterexample: the input consisting of six backticks contains no
parseable fenced JSON block and is not valid JSON, so by the claim the
function should return the empty dict; instead the mangled regex matches and
`match.group(1)` raises an uncaught `IndexError`. -/
theorem c4_counterexample :
    parse_json_from_markdown c4text = MdResult.raised "IndexError: no such group" ∧
    ∀ j shown, parse_json_from_markdown c4text ≠ MdResult.ok j shown := by
  have h : parse_json_from_markdown c4text = MdResult.raised "IndexError: no such group" := by
    with_unfolding_all rfl
  refine ⟨h, fun j shown hok => ?_⟩
  rw [h] at hok
  exact MdResult.noConfusion hok

/-- C4 (amended): for every input string that does not contain six
consecutive backticks and is not valid JSON after stripping, the function
returns the empty dict without raising, and the on-screen error shows at most
the first 500 characters of the raw text (plus a fixed ellipsis marker). -/
theorem c4_amended (t : String) (h6 : containsSixBackticks t = false)
    (hj : jsonLoads t.trim = none) :
    parse_json_from_markdown t = MdResult.ok (Json.obj []) [shownRaw t.toList] ∧
    (shownRaw t.toList = t.toList ∨
      shownRaw t.toList = t.toList.take 500 ++ ['.', '.', '.']) ∧
    (t.toList.take 500).length ≤ 500 := by
  refine ⟨?_, ?_, ?_⟩
  · unfold parse_json_from_markdown
    rw [h6, hj]
    simp
  · unfold shownRaw
    split
    · right; rfl
    · left; rfl
  · rw [List.length_take]
    exact min_le_left _ _

/-- C4 amended, instantiated at the input `"hello"`. -/
theorem c4_amended_witness :
    parse_json_from_markdown "hello"
        = MdResult.ok (Json.obj []) [shownRaw "hello".toList] ∧
    (shownRaw "hello".toList = "hello".toList ∨
      shownRaw "hello".toList = "hello".toList.take 500 ++ ['.', '.', '.']) ∧
    ("hello".toList.take 500).length ≤ 500 :=
  c4_amended "hello" (by decide) (by with_unfolding_all rfl)

/-! ## C5/C9: `DataProcessor.merge_price_ratio` (src/src/data/pe_api.py 16-30) -/

/-- A daily price bar after `add_year_quarter` (columns of `price_df` other
than those the function reads are irrelevant and omitted; `time` is kept as a
sortable day number — the final `dt.strftime` only reformats it). -/
structure PriceRow where
  time : Int
  close : ℚ
  year : Int
  quarter : Int
  deriving DecidableEq, Repr

/-- The `["Năm", "Kỳ", "EPS (VND)"]` projection of a `ratio_df` row. -/
structure RatioRow where
  year : Int
  quarter : Int
  eps : PF
  deriving DecidableEq, Repr

/-- A merged row before `PEtrailing` is computed. -/
structure JoinRow where
  time : Int
  close : ℚ
  year : Int
  quarter : Int
  eps : PF
  epsNam : PF
  deriving DecidableEq, Repr

/-- A row of the output frame of `merge_price_ratio`. -/
structure MergedRow where
  time : Int
  close : ℚ
  year : Int
  quarter : Int
  eps : PF
  epsNam : PF
  petrailing : PF
  deriving DecidableEq, Repr

/-- Ascending (Năm, Kỳ) order used by `sort_values(["Năm","Kỳ"])`. -/
def ratioLE (a b : RatioRow) : Prop :=
  a.year < b.year ∨ (a.year = b.year ∧ a.quarter ≤ b.quarter)

instance : DecidableRel ratioLE := fun a b => by
  unfold ratioLE
  infer_instance

/-- pandas `.rolling(4).sum()` at position `i` (default `min_periods` =
window, so the first three positions are NaN; a NaN inside the window makes
the sum NaN, which `PF.add` propagates). -/
def rollSum4 (xs : List PF) (i : ℕ) : PF :=
  if i < 3 then PF.nan
  else (((xs.getD (i - 3) PF.nan).add (xs.getD (i - 2) PF.nan)).add
    (xs.getD (i - 1) PF.nan)).add (xs.getD i PF.nan)

/-- Lines 19-21 of pe_api.py: select and copy the EPS columns, sort ascending
by (Năm, Kỳ), and attach the rolling 4-quarter sum `EPS_nam`. -/
def epsTable (ratio : List RatioRow) : List (RatioRow × PF) :=
  let s := List.insertionSort ratioLE ratio
  s.enum.map (fun p => (p.2, rollSum4 (s.map (fun r => r.eps)) p.1))

/-- Line 24: `pd.merge(price_df, eps, on=["Năm","Kỳ"], how="left")` — each
price row is paired with every matching EPS row (in EPS order), or with NaN
columns when there is no match. -/
def mergedRaw (price : List PriceRow) (ratio : List RatioRow) : List JoinRow :=
  price.flatMap (fun p =>
    match (epsTable ratio).filter
        (fun er => er.1.year == p.year && er.1.quarter == p.quarter) with
    | [] => [⟨p.time, p.close, p.year, p.quarter, PF.nan, PF.nan⟩]
    | ms => ms.map (fun er => ⟨p.time, p.close, p.year, p.quarter, er.1.eps, er.2⟩))

/-- Backwards fill of one column: each NaN takes the next non-NaN value below
it (the original values, as pandas `bfill` does); returns the filled column
and the topmost non-NaN carry. -/
def bfillGo : List PF → List PF × Option PF
  | [] => ([], none)
  | x :: xs =>
    let (ys, nv) := bfillGo xs
    if x.isNan then ((nv.getD PF.nan) :: ys, nv) else (x :: ys, some x)

def bfillCol (xs : List PF) : List PF := (bfillGo xs).1

/-- Line 25: `df.fillna(method="bfill", inplace=True)` — applied per column;
in this model only the two EPS columns can hold NaN. -/
def bfillJoin (rows : List JoinRow) : List JoinRow :=
  List.zipWith (fun (r : JoinRow) (p : PF × PF) => { r with eps := p.1, epsNam := p.2 })
    rows ((bfillCol (rows.map (fun r => r.eps))).zip (bfillCol (rows.map (fun r => r.epsNam))))

/-- Embeds `DataProcessor.merge_price_ratio`: left-join the rolling EPS onto the
price rows, backfill, then `PEtrailing = close * 1000 / EPS_nam`. -/
def merge_price_ratio (price : List PriceRow) (ratio : List RatioRow) : List MergedRow :=
  (bfillJoin (mergedRaw price ratio)).map (fun r =>
    ⟨r.time, r.close, r.year, r.quarter, r.eps, r.epsNam,
      (PF.num (r.close * 1000)).div r.epsNam⟩)

/-- The call-level view of `merge_price_ratio`: the body only reads the
caller's `price_df`/`ratio_df` bindings — the selection is `.copy()`-ed and
every in-place mutation (`fillna(inplace=True)`, column assignments) targets
the fresh frames created inside the function — so the caller's frames after
the call are unchanged, alongside the returned frame. -/
def merge_price_ratio_call (price : List PriceRow) (ratio : List RatioRow) :
    (List PriceRow × List RatioRow) × List MergedRow :=
  ((price, ratio), merge_price_ratio price ratio)

theorem bfillGo_fst_length (xs : List PF) : (bfillGo xs).1.length = xs.length := by
  induction xs with
  | nil => rfl
  | cons y ys ih =>
    unfold bfillGo
    cases hb : bfillGo ys with
    | mk zs nv =>
      rw [hb] at ih
      by_cases h : y.isNan <;> simp [h, ih]

theorem bfillCol_length (xs : List PF) : (bfillCol xs).length = xs.length :=
  bfillGo_fst_length xs

/-- Backfill leaves non-NaN entries in place. -/
theorem bfillCol_get?_of_not_nan (xs : List PF) (i : ℕ) (x : PF)
    (hx : xs.get? i = some x) (hn : x.isNan = false) :
    (bfillCol xs).get? i = some x := by
  induction xs generalizing i with
  | nil => simp at hx
  | cons y ys ih =>
    unfold bfillCol bfillGo
    cases hb : bfillGo ys with
    | mk zs nv =>
      cases i with
      | zero =>
        simp only [List.get?_cons_zero, Option.some_inj] at hx
        subst hx
        simp [hn]
      | succ i =>
        simp only [List.get?_cons_succ] at hx
        have hz := ih i hx
        unfold bfillCol at hz
        rw [hb] at hz
        have hz' : zs.get? i = some x := hz
        rw [List.get?_eq_getElem?] at hz'
        by_cases h : y.isNan <;> simp [h, hz']

/-- C5 concrete price frame: one day with close 10 (thousand VND) in 2020Q4. -/
def c5price : List PriceRow := [⟨0, 10, 2020, 4⟩]

/-- C5 concrete ratio frame: four quarters of 2020, EPS 1 VND each, newest
first as `get_ratio_data` returns them. -/
def c5ratio : List RatioRow :=
  [⟨2020, 4, PF.num 1⟩, ⟨2020, 3, PF.num 1⟩, ⟨2020, 2, PF.num 1⟩, ⟨2020, 1, PF.num 1⟩]

/-- C5 counterexample: the 2020Q4 price row joins a trailing-twelve-month EPS
of 4, and the claim says `PEtrailing = close / EPS = 10/4`; the code computes
`close * 1000 / EPS = 2500` (the close is quoted in thousand VND and is
converted to VND first). -/
theorem c5_counterexample :
    (merge_price_ratio c5price c5ratio).map (fun r => r.petrailing) = [PF.num 2500] ∧
    PF.num (2500 : ℚ) ≠ PF.num ((10 : ℚ) / 4) := by
  constructor
  · with_unfolding_all rfl
  · intro h
    simp only [PF.num.injEq] at h
    norm_num at h

/-- C5 (amended): `merge_price_ratio` left-joins the trailing-twelve-month
EPS — the rolling 4-quarter sum of quarterly EPS taken after sorting
ascending by (Năm, Kỳ) — onto the daily price rows keyed by (Năm, Kỳ), and
for every joined row whose trailing EPS is a (nonzero) number, sets
`PEtrailing` to the close price converted to VND (`close * 1000`) divided by
that trailing EPS; the backfill step does not disturb those rows. -/
theorem c5_amended (price : List PriceRow) (ratio : List RatioRow) (i : ℕ)
    (r : MergedRow) (e : ℚ)
    (hr : (merge_price_ratio price ratio).get? i = some r)
    (he : ((mergedRaw price ratio).get? i).map (fun j => j.epsNam) = some (PF.num e))
    (he0 : e ≠ 0) :
    r.epsNam = PF.num e ∧ r.petrailing = PF.num (r.close * 1000 / e) := by
  rcases Option.map_eq_some'.mp he with ⟨j0, hj0, hje⟩
  unfold merge_price_ratio at hr
  rw [List.get?_map] at hr
  rcases Option.map_eq_some'.mp hr with ⟨jf, hjf, hrf⟩
  unfold bfillJoin at hjf
  rcases (List.get?_zipWith_eq_some _ _ _ _ _).mp hjf with ⟨r0, pq, hr0, hpq, hmk⟩
  rcases (List.get?_zip_eq_some _ _ _ _).mp hpq with ⟨hc1, hc2⟩
  have hr0j : r0 = j0 := by
    rw [hj0] at hr0
    exact (Option.some_inj.mp hr0).symm
  subst hr0j
  have hnamcol : (List.map (fun r => r.epsNam) (mergedRaw price ratio)).get? i
      = some (PF.num e) := by
    rw [List.get?_map, hj0]
    simp [hje]
  have hc2' : (bfillCol (List.map (fun r => r.epsNam) (mergedRaw price ratio))).get? i
      = some (PF.num e) :=
    bfillCol_get?_of_not_nan _ i (PF.num e) hnamcol rfl
  rw [hc2'] at hc2
  have hpq2 : pq.2 = PF.num e := (Option.some_inj.mp hc2).symm
  subst hmk
  subst hrf
  refine ⟨by simp [hpq2], ?_⟩
  simp only [hpq2, PF.div]
  rw [if_neg he0]

/-- C5 amended, instantiated on the concrete frames: the joined row gets
`PEtrailing = 10 * 1000 / 4 = 2500`. -/
theorem c5_amended_witness :
    ∃ r : MergedRow, (merge_price_ratio c5price c5ratio).get? 0 = some r ∧
      r.epsNam = PF.num 4 ∧ r.petrailing = PF.num (r.close * 1000 / 4) := by
  refine ⟨⟨0, 10, 2020, 4, PF.num 1, PF.num 4, PF.num 2500⟩, by with_unfolding_all rfl, ?_⟩
  exact c5_amended c5price c5ratio 0 ⟨0, 10, 2020, 4, PF.num 1, PF.num 4, PF.num 2500⟩ 4
    (by with_unfolding_all rfl) (by with_unfolding_all rfl) (by norm_num)

/-- C9: `merge_price_ratio` is a pure, deterministic transform — two calls on
equal frames return equal results, and the caller's frames are returned
unchanged by the call (the body only mutates frames it freshly creates). -/
theorem c9_pure (p p' : List PriceRow) (r r' : List RatioRow)
    (hp : p = p') (hr : r = r') :
    merge_price_ratio_call p r = merge_price_ratio_call p' r' ∧
    (merge_price_ratio_call p r).1 = (p, r) := by
  subst hp
  subst hr
  exact ⟨rfl, rfl⟩

/-- C9, instantiated on the concrete frames of C5. -/
theorem c9_pure_witness :
    merge_price_ratio_call c5price c5ratio = merge_price_ratio_call c5price c5ratio ∧
    (merge_price_ratio_call c5price c5ratio).1 = (c5price, c5ratio) :=
  c9_pure c5price c5price c5ratio c5ratio rfl rfl

/-! ## C3/C8: `FundamentalAnalyst.compute_rolling_dupont`
(src/src/agents/fundamental_analyst.py lines 116-151) -/

/-- An income-statement row (the columns the function reads; a cell is `none`
when the value is missing or non-numeric, which `pd.to_numeric(errors=
"coerce")` turns into NaN). -/
structure IncomeRow where
  cp : String
  year : Int
  quarter : Int
  revenue : Option ℚ
  netIncome : Option ℚ
  deriving DecidableEq, Repr

/-- A balance-sheet row (the columns the function reads). -/
structure BalanceRow where
  cp : String
  year : Int
  quarter : Int
  assets : Option ℚ
  equity : Option ℚ
  deriving DecidableEq, Repr

/-- A row of the inner merge of income and balance on (CP, Năm, Kỳ). -/
structure FinRow where
  cp : String
  year : Int
  quarter : Int
  revenue : Option ℚ
  netIncome : Option ℚ
  assets : Option ℚ
  equity : Option ℚ
  deriving DecidableEq, Repr

/-- A merged row after `pd.to_numeric(errors="coerce").fillna(0)` on the four
numeric columns. -/
structure CFinRow where
  year : Int
  quarter : Int
  revenue : ℚ
  netIncome : ℚ
  assets : ℚ
  equity : ℚ
  deriving DecidableEq, Repr, Inhabited

/-- A row of the DataFrame returned by `compute_rolling_dupont`. -/
structure DupontRow where
  year : Int
  quarter : Int
  profit_margin : PF
  asset_turnover : PF
  equity_multiplier : PF
  roe : PF
  deriving DecidableEq, Repr

/-- Models `pd.merge(income, balance, on=["CP","Năm","Kỳ"], how="inner")`. -/
def mergeFin (inc : List IncomeRow) (bal : List BalanceRow) : List FinRow :=
  inc.flatMap (fun i =>
    (bal.filter (fun b => b.cp == i.cp && b.year == i.year && b.quarter == i.quarter)).map
      (fun b => ⟨i.cp, i.year, i.quarter, i.revenue, i.netIncome, b.assets, b.equity⟩))

/-- Ascending (Năm, Kỳ) order used by `df.sort_values(["Năm","Kỳ"])`. -/
def finLE (a b : FinRow) : Prop :=
  a.year < b.year ∨ (a.year = b.year ∧ a.quarter ≤ b.quarter)

instance : DecidableRel finLE := fun a b => by
  unfold finLE
  infer_instance

/-- Numeric coercion of lines 127-129: missing/non-numeric cells become 0. -/
def coerceFin (r : FinRow) : CFinRow :=
  ⟨r.year, r.quarter, r.revenue.getD 0, r.netIncome.getD 0,
    r.assets.getD 0, r.equity.getD 0⟩

/-- pandas `.rolling(window=4, min_periods=1).sum()` at position `i`:
the sum of the last at most 4 entries up to `i`. -/
def winSum (xs : List ℚ) (i : ℕ) : ℚ := ((xs.take (i + 1)).drop (i + 1 - 4)).sum

/-- pandas `.rolling(window=4, min_periods=1).mean()` at position `i`. -/
def winMean (xs : List ℚ) (i : ℕ) : ℚ := winSum xs i / (min (i + 1) 4 : ℕ)

/-- Line 132: `df["revenue_ttm"]`. -/
def revenue_ttm (xs : List CFinRow) (i : ℕ) : ℚ := winSum (xs.map (fun r => r.revenue)) i

/-- Line 133: `df["net_income_ttm"]`. -/
def net_income_ttm (xs : List CFinRow) (i : ℕ) : ℚ := winSum (xs.map (fun r => r.netIncome)) i

/-- Line 136: `df["avg_assets_ttm"]`. -/
def avg_assets_ttm (xs : List CFinRow) (i : ℕ) : ℚ := winMean (xs.map (fun r => r.assets)) i

/-- Line 137: `df["avg_equity_ttm"]`. -/
def avg_equity_ttm (xs : List CFinRow) (i : ℕ) : ℚ := winMean (xs.map (fun r => r.equity)) i

/-- Line 140: `profit_margin = net_income_ttm / revenue_ttm * 100` (in float
arithmetic, hence `PF`: a zero denominator gives NaN or ±inf). -/
def profit_margin (xs : List CFinRow) (i : ℕ) : PF :=
  ((PF.num (net_income_ttm xs i)).div (PF.num (revenue_ttm xs i))).mul (PF.num 100)

/-- Line 141: `asset_turnover = revenue_ttm / avg_assets_ttm`. -/
def asset_turnover (xs : List CFinRow) (i : ℕ) : PF :=
  (PF.num (revenue_ttm xs i)).div (PF.num (avg_assets_ttm xs i))

/-- Line 142: `equity_multiplier = avg_assets_ttm / avg_equity_ttm`. -/
def equity_multiplier (xs : List CFinRow) (i : ℕ) : PF :=
  (PF.num (avg_assets_ttm xs i)).div (PF.num (avg_equity_ttm xs i))

/-- Line 143: `roe = (profit_margin / 100) * asset_turnover *
equity_multiplier * 100`, computed from the unrounded columns. -/
def roeTTM (xs : List CFinRow) (i : ℕ) : PF :=
  ((((profit_margin xs i).div (PF.num 100)).mul (asset_turnover xs i)).mul
    (equity_multiplier xs i)).mul (PF.num 100)

/-- Lines 131-150 applied to the coerced, ascending-sorted merged rows:
each output row carries the four components after `.round(2).fillna(0)`. -/
def dupontCore (xs : List CFinRow) : List DupontRow :=
  (List.range xs.length).map (fun i =>
    ⟨(xs.getD i default).year, (xs.getD i default).quarter,
      PF.fillna0 (PF.roundCell2 (profit_margin xs i)),
      PF.fillna0 (PF.roundCell2 (asset_turnover xs i)),
      PF.fillna0 (PF.roundCell2 (equity_multiplier xs i)),
      PF.fillna0 (PF.roundCell2 (roeTTM xs i))⟩)

/-- Embeds `FundamentalAnalyst.compute_rolling_dupont`: merge, sort ascending,
coerce, compute rolling components, round, and return newest-first (the final
`sort_values(ascending=[False, False])` on the ascending-sorted frame is the
reversal). -/
def compute_rolling_dupont (inc : List IncomeRow) (bal : List BalanceRow) : List DupontRow :=
  (dupontCore ((List.insertionSort finLE (mergeFin inc bal)).map coerceFin)).reverse

/-- C3: in the DataFrame returned by `compute_rolling_dupont`, for every row
whose 4-quarter window is full (chronological index `i ≥ 3`) and whose TTM
denominators are nonzero, the unrounded DuPont identity
`roe = profit_margin/100 × asset_turnover × equity_multiplier × 100` holds
exactly, and each stored column is the half-even 2-decimal rounding of its
exact value, hence within 1/200 of it — the stored `roe` equals the product
of the stored components up to the tolerance introduced by rounding the four
columns independently. -/
theorem c3_roe_identity (inc : List IncomeRow) (bal : List BalanceRow)
    (xs : List CFinRow)
    (hxs : xs = (List.insertionSort finLE (mergeFin inc bal)).map coerceFin)
    (i : ℕ) (hi : i < xs.length) (hfull : 3 ≤ i)
    (hrev : revenue_ttm xs i ≠ 0) (hass : avg_assets_ttm xs i ≠ 0)
    (heqy : avg_equity_ttm xs i ≠ 0) :
    ∃ (pm a em : ℚ) (r : DupontRow),
      profit_margin xs i = PF.num pm ∧
      asset_turnover xs i = PF.num a ∧
      equity_multiplier xs i = PF.num em ∧
      roeTTM xs i = PF.num (pm / 100 * a * em * 100) ∧
      (compute_rolling_dupont inc bal).get? (xs.length - 1 - i) = some r ∧
      r.profit_margin = PF.num (round2 pm) ∧
      r.asset_turnover = PF.num (round2 a) ∧
      r.equity_multiplier = PF.num (round2 em) ∧
      r.roe = PF.num (round2 (pm / 100 * a * em * 100)) ∧
      |round2 pm - pm| ≤ 1/200 ∧
      |round2 a - a| ≤ 1/200 ∧
      |round2 em - em| ≤ 1/200 ∧
      |round2 (pm / 100 * a * em * 100) - pm / 100 * a * em * 100| ≤ 1/200 := by
  have hpm : profit_margin xs i
      = PF.num (net_income_ttm xs i / revenue_ttm xs i * 100) := by
    unfold profit_margin
    simp [PF.div, PF.mul, hrev]
  have ha : asset_turnover xs i
      = PF.num (revenue_ttm xs i / avg_assets_ttm xs i) := by
    unfold asset_turnover
    simp [PF.div, hass]
  have hem : equity_multiplier xs i
      = PF.num (avg_assets_ttm xs i / avg_equity_ttm xs i) := by
    unfold equity_multiplier
    simp [PF.div, heqy]
  have hroe : roeTTM xs i
      = PF.num (net_income_ttm xs i / revenue_ttm xs i * 100 / 100
          * (revenue_ttm xs i / avg_assets_ttm xs i)
          * (avg_assets_ttm xs i / avg_equity_ttm xs i) * 100) := by
    unfold roeTTM
    rw [hpm, ha, hem]
    simp [PF.div, PF.mul]
  have hlen : (dupontCore xs).length = xs.length := by
    simp [dupontCore]
  have hcore : (dupontCore xs).get? i = some
      ⟨(xs.getD i default).year, (xs.getD i default).quarter,
        PF.fillna0 (PF.roundCell2 (profit_margin xs i)),
        PF.fillna0 (PF.roundCell2 (asset_turnover xs i)),
        PF.fillna0 (PF.roundCell2 (equity_multiplier xs i)),
        PF.fillna0 (PF.roundCell2 (roeTTM xs i))⟩ := by
    unfold dupontCore
    rw [List.get?_map, List.get?_range hi]
    rfl
  have hout : (compute_rolling_dupont inc bal).get? (xs.length - 1 - i)
      = (dupontCore xs).get? i := by
    unfold compute_rolling_dupont
    rw [← hxs]
    have hlt : xs.length - 1 - i < (dupontCore xs).length := by omega
    rw [List.get?_reverse hlt, hlen]
    congr 1
    omega
  refine ⟨net_income_ttm xs i / revenue_ttm xs i * 100,
    revenue_ttm xs i / avg_assets_ttm xs i,
    avg_assets_ttm xs i / avg_equity_ttm xs i, _,
    hpm, ha, hem, hroe, by rw [hout, hcore], ?_, ?_, ?_, ?_,
    abs_round2_sub_le _, abs_round2_sub_le _, abs_round2_sub_le _,
    abs_round2_sub_le _⟩
  · rw [hpm]
    rfl
  · rw [ha]
    rfl
  · rw [hem]
    rfl
  · rw [hroe]
    rfl

/-- Concrete income rows for the C3 witness: four quarters of 2020 with
revenue 10 and net income 2 each. -/
def c3inc : List IncomeRow :=
  [⟨"A", 2020, 1, some 10, some 2⟩, ⟨"A", 2020, 2, some 10, some 2⟩,
   ⟨"A", 2020, 3, some 10, some 2⟩, ⟨"A", 2020, 4, some 10, some 2⟩]

/-- Concrete balance rows for the C3 witness: assets 20, equity 10. -/
def c3bal : List BalanceRow :=
  [⟨"A", 2020, 1, some 20, some 10⟩, ⟨"A", 2020, 2, some 20, some 10⟩,
   ⟨"A", 2020, 3, some 20, some 10⟩, ⟨"A", 2020, 4, some 20, some 10⟩]

/-- The coerced sorted merged rows of the C3 witness inputs. -/
def c3xs : List CFinRow := (List.insertionSort finLE (mergeFin c3inc c3bal)).map coerceFin

/-- C3 instantiated: at the 2020Q4 row (full window) the identity holds with
profit margin 20, asset turnover 2, equity multiplier 2, ROE 80. -/
theorem c3_roe_identity_witness :
    ∃ (pm a em : ℚ) (r : DupontRow),
      profit_margin c3xs 3 = PF.num pm ∧
      asset_turnover c3xs 3 = PF.num a ∧
      equity_multiplier c3xs 3 = PF.num em ∧
      roeTTM c3xs 3 = PF.num (pm / 100 * a * em * 100) ∧
      (compute_rolling_dupont c3inc c3bal).get? (c3xs.length - 1 - 3) = some r ∧
      r.profit_margin = PF.num (round2 pm) ∧
      r.asset_turnover = PF.num (round2 a) ∧
      r.equity_multiplier = PF.num (round2 em) ∧
      r.roe = PF.num (round2 (pm / 100 * a * em * 100)) ∧
      |round2 pm - pm| ≤ 1/200 ∧
      |round2 a - a| ≤ 1/200 ∧
      |round2 em - em| ≤ 1/200 ∧
      |round2 (pm / 100 * a * em * 100) - pm / 100 * a * em * 100| ≤ 1/200 :=
  c3_roe_identity c3inc c3bal c3xs rfl 3
    (by have h : c3xs.length = 4 := by with_unfolding_all rfl
        omega)
    (by decide)
    (by have h : revenue_ttm c3xs 3 = 40 := by with_unfolding_all rfl
        rw [h]
        norm_num)
    (by have h : avg_assets_ttm c3xs 3 = 20 := by with_unfolding_all rfl
        rw [h]
        norm_num)
    (by have h : avg_equity_ttm c3xs 3 = 10 := by with_unfolding_all rfl
        rw [h]
        norm_num)

/-! ## C6/C7/C8/C10: `DataProcessor.calculate_pe_distribution_stats`
(src/src/data/pe_api.py lines 33-133) -/

/-- A DataFrame as the statistics code sees it: named columns of float
cells. -/
def Frame := List (String × List PF)

def colNames (f : Frame) : List String := f.map (fun p => p.1)

/-- Models `df[c]`: the first column named `c`. -/
def getCol (f : Frame) (c : String) : Option (List PF) :=
  (f.find? (fun p => p.1 = c)).map (fun p => p.2)

def rowCount (f : Frame) : ℕ :=
  match f with
  | [] => 0
  | p :: _ => p.2.length

/-- Models `df.empty`: true when the frame has no columns or no rows. -/
def dfEmpty (f : Frame) : Bool := f.isEmpty || rowCount f == 0

/-- Line 59: `df[c].replace([np.inf, -np.inf], np.nan).dropna()` — the finite
values, in order. -/
def cleanPF (xs : List PF) : List ℚ :=
  xs.filterMap (fun v => match v with
    | PF.num q => some q
    | _ => none)

/-- Ascending sort of a series (pandas sorts internally for
median/percentiles). -/
def sortQ (xs : List ℚ) : List ℚ := List.insertionSort (· ≤ ·) xs

/-- pandas `Series.mean()`. -/
def seriesMean (xs : List ℚ) : ℚ := xs.sum / xs.length

/-- pandas `Series.median()`: middle of the sorted values, or the average of
the two middle values. -/
def seriesMedian (xs : List ℚ) : ℚ :=
  let s := sortQ xs
  if xs.length % 2 = 1 then s.getD (xs.length / 2) 0
  else (s.getD (xs.length / 2 - 1) 0 + s.getD (xs.length / 2) 0) / 2

/-- pandas `Series.var()` (ddof = 1). For a single observation pandas yields
NaN; that case is guarded at the use site. -/
def seriesVar (xs : List ℚ) : ℚ :=
  ((xs.map (fun x => (x - seriesMean xs) ^ 2)).sum) / ((xs.length : ℚ) - 1)

/-- The k-th central moment (scipy's building block for skew/kurtosis). -/
def centralMoment (xs : List ℚ) (k : ℕ) : ℚ :=
  ((xs.map (fun x => (x - seriesMean xs) ^ k)).sum) / (xs.length : ℚ)

/-- Models `np.percentile(xs, p)` with the default linear interpolation. -/
def npPercentile (xs : List ℚ) (p : ℕ) : ℚ :=
  let s := sortQ xs
  let h : ℚ := ((xs.length : ℚ) - 1) * p / 100
  let lo : ℕ := (⌊h⌋).toNat
  s.getD lo 0 + (h - lo) * (s.getD (lo + 1) (s.getD lo 0) - s.getD lo 0)

/-- Models `scipy.stats.percentileofscore(xs, x)` with the default `kind="rank"`:
`(count(xs < x) + count(xs <= x) + [count< < count<=]) * 50 / len(xs)`. -/
def pctScore (xs : List ℚ) (x : ℚ) : ℚ :=
  let l := xs.countP (fun y => decide (y < x))
  let r := xs.countP (fun y => decide (y ≤ x))
  let plus : ℕ := if l < r then 1 else 0
  ((l + r + plus : ℕ) : ℚ) * 50 / (xs.length : ℚ)

/-- The percentile list of line 83. -/
def pePercentList : List ℕ := [25, 30, 40, 50, 60, 70, 75, 80, 90, 95, 99]

/-- An ℝ-valued cell that can also be `+inf` or NaN (used only for the
coefficient of variation). -/
inductive RE where
  | val (x : ℝ)
  | posInf
  | nan

/-- The statistics dictionary built by lines 68-131, one field per key, in
source order. `Option` fields model keys whose value can be NaN (`none`) or
that are only set under a guard (`ma200`, `deviation_from_ma200`). The
`current_position` key is set only in the dead `np.isnan(current_pe)` branch
(the current value is drawn from the cleaned series, so it is never NaN) and
is omitted. -/
structure StatsOut where
  current_pe : ℚ
  count : ℕ
  mean : ℚ
  median : ℚ
  std : Option ℝ
  var : Option ℚ
  skewness : Option ℝ
  kurtosis : Option ℚ
  minV : ℚ
  maxV : ℚ
  rangeV : ℚ
  percentiles : List (ℕ × ℚ)
  current_percentile : ℚ
  iqr : ℚ
  outlier_lower_threshold : ℚ
  outlier_upper_threshold : ℚ
  coefficient_of_variation : RE
  current_z_score : Option ℝ
  ma200 : Option ℚ
  deviation_from_ma200 : Option PF

inductive StatsResult where
  | err (msg : String)
  | ok (s : StatsOut)

/-- The statistics of a nonempty cleaned series `vals` (newest value first),
mirroring lines 66-131 field by field:
* `std`/`var` are NaN (`none`) for a single observation (pandas ddof = 1);
* `skewness`/`kurtosis` are NaN for a constant series (scipy `0/0`);
* rounded values are used exactly where the code reads them back out of
  `stats_dict` (percentile thresholds, coefficient of variation, z-score);
* the z-score is NaN both when the rounded std is 0 (the guard fails) and
  when std is NaN (Python `nan != 0` is true and the division yields NaN);
* `ma200`/`deviation_from_ma200` are present only with ≥ 200 observations,
  and the deviation är computed from the unrounded moving average in float
  arithmetic (`PF`). -/
noncomputable def statsOf (vals : List ℚ) : StatsOut :=
  let current := vals.headD 0
  let n := vals.length
  let mean1 := round1 (seriesMean vals)
  let std1 : Option ℝ :=
    if 2 ≤ n then some (round1 (Real.sqrt ((seriesVar vals : ℚ) : ℝ))) else none
  let q1 := round1 (npPercentile vals 25)
  let q3 := round1 (npPercentile vals 75)
  let ma0 := seriesMean (vals.take 200)
  { current_pe := round1 current
    count := n
    mean := mean1
    median := round1 (seriesMedian vals)
    std := std1
    var := if 2 ≤ n then some (round1 (seriesVar vals)) else none
    skewness :=
      if centralMoment vals 2 = 0 then none
      else some (round1 (((centralMoment vals 3 : ℚ) : ℝ)
        / Real.sqrt (((centralMoment vals 2 : ℚ) : ℝ) ^ 3)))
    kurtosis :=
      if centralMoment vals 2 = 0 then none
      else some (round1 (centralMoment vals 4 / centralMoment vals 2 ^ 2 - 3))
    minV := round1 ((sortQ vals).headD 0)
    maxV := round1 ((sortQ vals).getLastD 0)
    rangeV := round1 ((sortQ vals).getLastD 0 - (sortQ vals).headD 0)
    percentiles := pePercentList.map (fun p => (p, round1 (npPercentile vals p)))
    current_percentile := round1 (pctScore vals current)
    iqr := round1 (q3 - q1)
    outlier_lower_threshold := round1 (q1 - 2 * (q3 - q1))
    outlier_upper_threshold := round1 (q3 + 2 * (q3 - q1))
    coefficient_of_variation :=
      if mean1 = 0 then RE.posInf
      else match std1 with
        | some s => RE.val (round1 (s / (mean1 : ℝ)))
        | none => RE.nan
    current_z_score :=
      match std1 with
      | some s => if s = 0 then none else some (round1 (((current : ℚ) - (mean1 : ℚ) : ℚ) / s))
      | none => none
    ma200 := if 200 ≤ n then some (round1 ma0) else none
    deviation_from_ma200 :=
      if 200 ≤ n then
        some (PF.roundCell1 (((PF.num (current - ma0)).div (PF.num ma0)).mul (PF.num 100)))
      else none }

/-- Embeds `DataProcessor.calculate_pe_distribution_stats`: the three error guards
of lines 51-63, then the statistics of the cleaned series. -/
noncomputable def calculate_pe_distribution_stats (f : Frame) (c : String) : StatsResult :=
  if dfEmpty f then StatsResult.err "DataFrame rỗng"
  else if c ∈ colNames f then
    if (cleanPF ((getCol f c).getD [])).length = 0 then
      StatsResult.err "Không có dữ liệu PEtrailing hợp lệ"
    else StatsResult.ok (statsOf (cleanPF ((getCol f c).getD [])))
  else StatsResult.err ("Không tìm thấy cột " ++ c)

/-- Reference statistic (spec §8): the arithmetic mean. -/
def refMean (xs : List ℚ) : ℚ := xs.sum / xs.length

/-- Reference statistic (spec §8): the median of the sorted values. -/
def refMedian (xs : List ℚ) : ℚ :=
  let s := sortQ xs
  if xs.length % 2 = 1 then s.getD (xs.length / 2) 0
  else (s.getD (xs.length / 2 - 1) 0 + s.getD (xs.length / 2) 0) / 2

/-- Reference statistic (spec §8): the sample variance (Bessel-corrected),
defined for at least two observations. -/
def refVar (xs : List ℚ) : ℚ :=
  ((xs.map (fun x => (x - refMean xs) ^ 2)).sum) / ((xs.length : ℚ) - 1)

/-- Reference statistic (spec §8): the sample standard deviation. -/
noncomputable def refStd (xs : List ℚ) : ℝ := Real.sqrt ((refVar xs : ℚ) : ℝ)

/-- Reference statistic (spec §8): the population skewness `m3 / m2^(3/2)`. -/
noncomputable def refSkew (xs : List ℚ) : ℝ :=
  ((centralMoment xs 3 : ℚ) : ℝ) / Real.sqrt (((centralMoment xs 2 : ℚ) : ℝ) ^ 3)

/-- Reference statistic (spec §8): the excess kurtosis `m4 / m2^2 - 3`. -/
def refKurt (xs : List ℚ) : ℚ :=
  centralMoment xs 4 / (centralMoment xs 2) ^ 2 - 3

/-- Reference statistic (spec §8): linear-interpolation percentile. -/
def refPercentile (xs : List ℚ) (p : ℕ) : ℚ :=
  let s := sortQ xs
  let h : ℚ := ((xs.length : ℚ) - 1) * p / 100
  let lo : ℕ := (⌊h⌋).toNat
  s.getD lo 0 + (h - lo) * (s.getD (lo + 1) (s.getD lo 0) - s.getD lo 0)

theorem sortQ_perm (xs : List ℚ) : (sortQ xs).Perm xs := List.perm_insertionSort _ _

theorem sortQ_sorted (xs : List ℚ) : (sortQ xs).Sorted (· ≤ ·) :=
  List.sorted_insertionSort _ _

theorem headD_mem {α : Type} {s : List α} (hs : s ≠ []) (d : α) : s.headD d ∈ s := by
  cases s with
  | nil => exact absurd rfl hs
  | cons a t => simp

theorem getLastD_mem {α : Type} {s : List α} (hs : s ≠ []) (d : α) : s.getLastD d ∈ s := by
  induction s generalizing d with
  | nil => exact absurd rfl hs
  | cons a t ih =>
    rw [List.getLastD_cons]
    cases ht : t with
    | nil => simp
    | cons b t' =>
      have := ih (d := a) (by rw [ht]; simp)
      rw [ht] at this
      exact List.mem_cons_of_mem a this

theorem sorted_headD_le {s : List ℚ} (hs : s.Sorted (· ≤ ·)) {y : ℚ} (hy : y ∈ s)
    (d : ℚ) : s.headD d ≤ y := by
  cases s with
  | nil => simp at hy
  | cons a t =>
    rcases List.mem_cons.mp hy with rfl | hyt
    · simp
    · simpa using List.rel_of_sorted_cons hs y hyt

theorem sorted_le_getLastD {s : List ℚ} (hs : s.Sorted (· ≤ ·)) {y : ℚ} (hy : y ∈ s)
    (d : ℚ) : y ≤ s.getLastD d := by
  induction s generalizing d with
  | nil => simp at hy
  | cons a t ih =>
    rw [List.getLastD_cons]
    rcases List.mem_cons.mp hy with rfl | hyt
    · cases ht : t with
      | nil => simp
      | cons b t' =>
        have hbl : (b :: t').getLastD y ∈ b :: t' := getLastD_mem (by simp) y
        exact List.rel_of_sorted_cons (ht ▸ hs) _ hbl
    · exact ih hs.of_cons hyt a

/-- Membership in the column-name list matches a successful `find?`. -/
theorem getCol_isSome_of_mem {f : Frame} {c : String} (hc : c ∈ colNames f) :
    ∃ col, getCol f c = some col := by
  induction f with
  | nil => simp [colNames] at hc
  | cons p t ih =>
    by_cases h : p.1 = c
    · exact ⟨p.2, by simp [getCol, List.find?, h]⟩
    · have hc' : c ∈ colNames t := by
        simpa [colNames, h, Ne.symm h] using hc
      rcases ih hc' with ⟨col, hcol⟩
      exact ⟨col, by simpa [getCol, List.find?, h] using hcol⟩

/-- C10: `calculate_pe_distribution_stats` returns an error dictionary
exactly when the frame is empty, the PE column is missing, or the column has
no finite value; otherwise it returns the statistics, which always carry
`current_pe` (the rounded first finite value) and `count` (the number of
finite values). -/
theorem c10_error_characterization (f : Frame) (c : String) :
    ((∃ m, calculate_pe_distribution_stats f c = StatsResult.err m) ↔
      (dfEmpty f = true ∨ c ∉ colNames f ∨ cleanPF ((getCol f c).getD []) = [])) ∧
    (∀ s, calculate_pe_distribution_stats f c = StatsResult.ok s →
      s.current_pe = round1 ((cleanPF ((getCol f c).getD [])).headD 0) ∧
      s.count = (cleanPF ((getCol f c).getD [])).length) := by
  unfold calculate_pe_distribution_stats
  by_cases h1 : dfEmpty f
  · rw [if_pos h1]
    refine ⟨⟨fun _ => Or.inl h1, fun _ => ⟨_, rfl⟩⟩, fun s hs => StatsResult.noConfusion hs⟩
  · by_cases h2 : c ∈ colNames f
    · by_cases h3 : (cleanPF ((getCol f c).getD [])).length = 0
      · rw [if_neg h1, if_pos h2, if_pos h3]
        refine ⟨⟨fun _ => Or.inr (Or.inr (List.length_eq_zero.mp h3)), fun _ => ⟨_, rfl⟩⟩,
          fun s hs => StatsResult.noConfusion hs⟩
      · rw [if_neg h1, if_pos h2, if_neg h3]
        constructor
        · constructor
          · rintro ⟨m, hm⟩
            exact StatsResult.noConfusion hm
          · rintro (h | h | h)
            · exact absurd h h1
            · exact absurd h2 h
            · exact absurd (by rw [h]; rfl) h3
        · intro s hs
          injection hs with h
          subst h
          exact ⟨rfl, rfl⟩
    · rw [if_neg h1, if_neg h2]
      refine ⟨⟨fun _ => Or.inr (Or.inl h2), fun _ => ⟨_, rfl⟩⟩,
        fun s hs => StatsResult.noConfusion hs⟩

theorem cleanPF_eq_nil_of_all_nan {col : List PF} (h : ∀ v ∈ col, v.isNan = true) :
    cleanPF col = [] := by
  unfold cleanPF
  rw [List.filterMap_eq_nil]
  intro v hv
  have := h v hv
  cases v <;> simp_all [PF.isNan]

/-- C8: the statistical transforms tolerate an entirely empty numeric column
without raising: `calculate_pe_distribution_stats` returns the no-valid-data
error dictionary when every cell of the PE column is NaN; the DuPont
computation coerces missing numeric cells to zero; and the four DuPont
component columns of `compute_rolling_dupont` never contain NaN (each is
produced by `.round(2).fillna(0)`). -/
theorem c8_nan_tolerant :
    (∀ (f : Frame) (c : String) (col : List PF),
      dfEmpty f = false → c ∈ colNames f → getCol f c = some col →
      (∀ v ∈ col, v.isNan = true) →
      calculate_pe_distribution_stats f c
        = StatsResult.err "Không có dữ liệu PEtrailing hợp lệ") ∧
    (∀ r : FinRow,
      (r.revenue = none → (coerceFin r).revenue = 0) ∧
      (r.netIncome = none → (coerceFin r).netIncome = 0) ∧
      (r.assets = none → (coerceFin r).assets = 0) ∧
      (r.equity = none → (coerceFin r).equity = 0)) ∧
    (∀ (inc : List IncomeRow) (bal : List BalanceRow) (r : DupontRow),
      r ∈ compute_rolling_dupont inc bal →
      r.profit_margin ≠ PF.nan ∧ r.asset_turnover ≠ PF.nan ∧
      r.equity_multiplier ≠ PF.nan ∧ r.roe ≠ PF.nan) := by
  refine ⟨?_, ?_, ?_⟩
  · intro f c col hemp hc hcol hnan
    unfold calculate_pe_distribution_stats
    rw [if_neg (by rw [hemp]; exact Bool.false_ne_true), if_pos hc]
    rw [hcol]
    have hnil : cleanPF col = [] := cleanPF_eq_nil_of_all_nan hnan
    simp [hnil]
  · intro r
    refine ⟨?_, ?_, ?_, ?_⟩ <;> (intro h; simp [coerceFin, h])
  · intro inc bal r hr
    unfold compute_rolling_dupont at hr
    rw [List.mem_reverse] at hr
    unfold dupontCore at hr
    rcases List.mem_map.mp hr with ⟨i, _, hri⟩
    subst hri
    exact ⟨PF.fillna0_ne_nan _, PF.fillna0_ne_nan _, PF.fillna0_ne_nan _,
      PF.fillna0_ne_nan _⟩

/-- C8, instantiated: a PE column of two NaN cells yields the no-valid-data
error, and the 2020Q4 row of the concrete DuPont frame has a NaN-free ROE. -/
theorem c8_nan_tolerant_witness :
    calculate_pe_distribution_stats [("PEtrailing", [PF.nan, PF.nan])] "PEtrailing"
      = StatsResult.err "Không có dữ liệu PEtrailing hợp lệ" ∧
    (⟨2020, 4, PF.num 20, PF.num 2, PF.num 2, PF.num 80⟩ : DupontRow).roe ≠ PF.nan := by
  constructor
  · exact c8_nan_tolerant.1 [("PEtrailing", [PF.nan, PF.nan])] "PEtrailing"
      [PF.nan, PF.nan] (by decide) (by decide) rfl (by decide)
  · refine (c8_nan_tolerant.2.2 c3inc c3bal _ ?_).2.2.2
    have h : compute_rolling_dupont c3inc c3bal
        = [⟨2020, 4, PF.num 20, PF.num 2, PF.num 2, PF.num 80⟩,
           ⟨2020, 3, PF.num 20, PF.num (3/2), PF.num 2, PF.num 60⟩,
           ⟨2020, 2, PF.num 20, PF.num 1, PF.num 2, PF.num 40⟩,
           ⟨2020, 1, PF.num 20, PF.num (1/2), PF.num 2, PF.num 20⟩] := by
      with_unfolding_all rfl
    rw [h]
    exact List.mem_cons_self _ _

theorem countP_lt_le_countP_le (xs : List ℚ) (v : ℚ) :
    xs.countP (fun y => decide (y < v)) ≤ xs.countP (fun y => decide (y ≤ v)) :=
  List.countP_mono_left (fun a _ ha => by
    simp only [decide_eq_true_eq] at ha ⊢
    exact le_of_lt ha)

theorem pctScore_eq (xs : List ℚ) (x : ℚ)
    (h : xs.countP (fun y => decide (y < x)) < xs.countP (fun y => decide (y ≤ x))) :
    pctScore xs x
      = ((xs.countP (fun y => decide (y < x)) + xs.countP (fun y => decide (y ≤ x)) + 1 : ℕ) : ℚ)
        * 50 / (xs.length : ℚ) := by
  unfold pctScore
  dsimp only
  rw [if_pos h]

theorem pct_replace_mono (rest : List ℚ) (v v' : ℚ) (hvv : v ≤ v') :
    pctScore (v :: rest) v ≤ pctScore (v' :: rest) v' := by
  have hla : rest.countP (fun y => decide (y < v)) ≤ rest.countP (fun y => decide (y < v')) :=
    List.countP_mono_left (fun a _ ha => by
      simp only [decide_eq_true_eq] at ha ⊢
      exact lt_of_lt_of_le ha hvv)
  have hra : rest.countP (fun y => decide (y ≤ v)) ≤ rest.countP (fun y => decide (y ≤ v')) :=
    List.countP_mono_left (fun a _ ha => by
      simp only [decide_eq_true_eq] at ha ⊢
      exact le_trans ha hvv)
  have e1 : (v :: rest).countP (fun y => decide (y < v))
      = rest.countP (fun y => decide (y < v)) := by
    rw [List.countP_cons]
    simp
  have e2 : (v :: rest).countP (fun y => decide (y ≤ v))
      = rest.countP (fun y => decide (y ≤ v)) + 1 := by
    rw [List.countP_cons]
    simp
  have e1' : (v' :: rest).countP (fun y => decide (y < v'))
      = rest.countP (fun y => decide (y < v')) := by
    rw [List.countP_cons]
    simp
  have e2' : (v' :: rest).countP (fun y => decide (y ≤ v'))
      = rest.countP (fun y => decide (y ≤ v')) + 1 := by
    rw [List.countP_cons]
    simp
  have hc := countP_lt_le_countP_le rest v
  have hc' := countP_lt_le_countP_le rest v'
  rw [pctScore_eq (v :: rest) v (by rw [e1, e2]; omega),
    pctScore_eq (v' :: rest) v' (by rw [e1', e2']; omega),
    e1, e2, e1', e2']
  simp only [List.length_cons]
  have hn : (0 : ℚ) < ((rest.length + 1 : ℕ) : ℚ) := by positivity
  rw [div_le_div_iff hn hn]
  have harg : ((rest.countP (fun y => decide (y < v)) + (rest.countP (fun y => decide (y ≤ v)) + 1) + 1 : ℕ) : ℚ)
      ≤ ((rest.countP (fun y => decide (y < v')) + (rest.countP (fun y => decide (y ≤ v')) + 1) + 1 : ℕ) : ℚ) :=
    Nat.cast_le.mpr (by omega)
  nlinarith [harg, hn]

theorem pct_insert_mono (rest : List ℚ) (v z : ℚ) (hvz : v < z) :
    pctScore (v :: rest) v ≤ pctScore (z :: v :: rest) z := by
  have hra_lc : rest.countP (fun y => decide (y ≤ v)) ≤ rest.countP (fun y => decide (y < z)) :=
    List.countP_mono_left (fun a _ ha => by
      simp only [decide_eq_true_eq] at ha ⊢
      exact lt_of_le_of_lt ha hvz)
  have hra_rc : rest.countP (fun y => decide (y ≤ v)) ≤ rest.countP (fun y => decide (y ≤ z)) :=
    List.countP_mono_left (fun a _ ha => by
      simp only [decide_eq_true_eq] at ha ⊢
      exact le_trans ha (le_of_lt hvz))
  have hla : rest.countP (fun y => decide (y < v)) ≤ rest.countP (fun y => decide (y ≤ v)) :=
    countP_lt_le_countP_le rest v
  have hran : rest.countP (fun y => decide (y ≤ v)) ≤ rest.length :=
    List.countP_le_length _
  have e1 : (v :: rest).countP (fun y => decide (y < v))
      = rest.countP (fun y => decide (y < v)) := by
    rw [List.countP_cons]
    simp
  have e2 : (v :: rest).countP (fun y => decide (y ≤ v))
      = rest.countP (fun y => decide (y ≤ v)) + 1 := by
    rw [List.countP_cons]
    simp
  have e1' : (z :: v :: rest).countP (fun y => decide (y < z))
      = rest.countP (fun y => decide (y < z)) + 1 := by
    rw [List.countP_cons, List.countP_cons]
    simp [hvz, not_lt_of_lt hvz]
  have e2' : (z :: v :: rest).countP (fun y => decide (y ≤ z))
      = rest.countP (fun y => decide (y ≤ z)) + 2 := by
    rw [List.countP_cons, List.countP_cons]
    simp [le_of_lt hvz]
  have hcz := countP_lt_le_countP_le rest z
  rw [pctScore_eq (v :: rest) v (by rw [e1, e2]; omega),
    pctScore_eq (z :: v :: rest) z (by rw [e1', e2']; omega),
    e1, e2, e1', e2']
  simp only [List.length_cons]
  have hn : (0 : ℚ) < ((rest.length + 1 : ℕ) : ℚ) := by positivity
  have hn' : (0 : ℚ) < ((rest.length + 1 + 1 : ℕ) : ℚ) := by positivity
  rw [div_le_div_iff hn hn']
  push_cast
  have hlaQ : ((rest.countP (fun y => decide (y < v)) : ℕ) : ℚ)
      ≤ ((rest.countP (fun y => decide (y ≤ v)) : ℕ) : ℚ) := Nat.cast_le.mpr hla
  have hlcQ : ((rest.countP (fun y => decide (y ≤ v)) : ℕ) : ℚ)
      ≤ ((rest.countP (fun y => decide (y < z)) : ℕ) : ℚ) := Nat.cast_le.mpr hra_lc
  have hrcQ : ((rest.countP (fun y => decide (y ≤ v)) : ℕ) : ℚ)
      ≤ ((rest.countP (fun y => decide (y ≤ z)) : ℕ) : ℚ) := Nat.cast_le.mpr hra_rc
  have hranQ : ((rest.countP (fun y => decide (y ≤ v)) : ℕ) : ℚ)
      ≤ ((rest.length : ℕ) : ℚ) := Nat.cast_le.mpr hran
  nlinarith [mul_nonneg (sub_nonneg.mpr hlaQ) (by positivity : (0:ℚ) ≤ (rest.length : ℚ) + 2),
    mul_nonneg (sub_nonneg.mpr hlcQ) (by positivity : (0:ℚ) ≤ (rest.length : ℚ) + 1),
    mul_nonneg (sub_nonneg.mpr hrcQ) (by positivity : (0:ℚ) ≤ (rest.length : ℚ) + 1),
    sub_nonneg.mpr hranQ]

theorem cleanPF_map_num (xs : List ℚ) : cleanPF (xs.map PF.num) = xs := by
  unfold cleanPF
  rw [List.filterMap_map]
  exact List.filterMap_some xs

/-- A one-column frame of finite values is accepted by the guards and yields
the statistics of the raw series. -/
theorem stats_on_clean (c : String) (xs : List ℚ) (hne : xs ≠ []) :
    calculate_pe_distribution_stats [(c, xs.map PF.num)] c
      = StatsResult.ok (statsOf xs) := by
  unfold calculate_pe_distribution_stats
  have hemp : dfEmpty [(c, xs.map PF.num)] = false := by
    simp [dfEmpty, rowCount, List.length_map, List.length_eq_zero, hne]
  have hcol : getCol [(c, xs.map PF.num)] c = some (xs.map PF.num) := by
    simp [getCol, List.find?]
  rw [if_neg (by rw [hemp]; exact Bool.false_ne_true),
    if_pos (by simp [colNames]), hcol]
  simp only [Option.getD_some, cleanPF_map_num]
  rw [if_neg (by simpa [List.length_eq_zero] using hne)]

/-- C7: the `current_percentile` computed by
`calculate_pe_distribution_stats` is monotone in the latest observation:
replacing the latest value of the series with a strictly higher one yields a
percentile rank at least as large, and inserting a strictly higher value as
the new latest observation also never lowers the computed rank. -/
theorem c7_percentile_monotone (c : String) (rest : List ℚ) (v v' : ℚ)
    (hvv : v < v') :
    ∃ s s' s'' : StatsOut,
      calculate_pe_distribution_stats [(c, (v :: rest).map PF.num)] c
        = StatsResult.ok s ∧
      calculate_pe_distribution_stats [(c, (v' :: rest).map PF.num)] c
        = StatsResult.ok s' ∧
      calculate_pe_distribution_stats [(c, (v' :: v :: rest).map PF.num)] c
        = StatsResult.ok s'' ∧
      s.current_percentile ≤ s'.current_percentile ∧
      s.current_percentile ≤ s''.current_percentile := by
  refine ⟨statsOf (v :: rest), statsOf (v' :: rest), statsOf (v' :: v :: rest),
    stats_on_clean c _ (by simp), stats_on_clean c _ (by simp),
    stats_on_clean c _ (by simp), ?_, ?_⟩
  · exact round1_mono (pct_replace_mono rest v v' (le_of_lt hvv))
  · exact round1_mono (pct_insert_mono rest v v' hvv)

/-- C7, instantiated on the series `[1]` with the higher value 2. -/
theorem c7_percentile_monotone_witness :
    ∃ s s' s'' : StatsOut,
      calculate_pe_distribution_stats [("PE", [1].map PF.num)] "PE"
        = StatsResult.ok s ∧
      calculate_pe_distribution_stats [("PE", [2].map PF.num)] "PE"
        = StatsResult.ok s' ∧
      calculate_pe_distribution_stats [("PE", [2, 1].map PF.num)] "PE"
        = StatsResult.ok s'' ∧
      s.current_percentile ≤ s'.current_percentile ∧
      s.current_percentile ≤ s''.current_percentile :=
  c7_percentile_monotone "PE" [] 1 2 (by norm_num)

/-- C6: on any frame whose PE column has at least one finite value, the
statistics dictionary matches the reference statistics of the cleaned series,
each rounded to one decimal: the count is the number of finite values, the
central tendency/dispersion/shape statistics equal the rounded reference
formulas (sample variance and standard deviation requiring at least two
observations and skewness/kurtosis a non-constant series, exactly as pandas/
scipy return NaN otherwise), min/max/range are the rounded extrema of the
series, the eleven stored percentiles are the rounded linear-interpolation
percentiles, and the z-score is computed from the rounded mean and rounded
standard deviation — each within 1/20 of its reference value — and then
rounded. -/
theorem c6_stats_match_reference (f : Frame) (c : String) (col : List PF)
    (vals : List ℚ) (hemp : dfEmpty f = false) (hc : c ∈ colNames f)
    (hcol : getCol f c = some col) (hvals : cleanPF col = vals) (hne : vals ≠ []) :
    ∃ s : StatsOut, calculate_pe_distribution_stats f c = StatsResult.ok s ∧
      s.count = vals.length ∧
      s.current_pe = round1 (vals.headD 0) ∧
      s.mean = round1 (refMean vals) ∧
      s.median = round1 (refMedian vals) ∧
      (2 ≤ vals.length →
        s.var = some (round1 (refVar vals)) ∧ s.std = some (round1 (refStd vals))) ∧
      (vals.length = 1 → s.var = none ∧ s.std = none) ∧
      (centralMoment vals 2 ≠ 0 →
        s.skewness = some (round1 (refSkew vals)) ∧
        s.kurtosis = some (round1 (refKurt vals))) ∧
      (∃ m M : ℚ, m ∈ vals ∧ M ∈ vals ∧ (∀ y ∈ vals, m ≤ y) ∧ (∀ y ∈ vals, y ≤ M) ∧
        s.minV = round1 m ∧ s.maxV = round1 M ∧ s.rangeV = round1 (M - m)) ∧
      s.percentiles = pePercentList.map (fun p => (p, round1 (refPercentile vals p))) ∧
      |s.mean - refMean vals| ≤ 1/20 ∧
      (∀ sd : ℝ, s.std = some sd → |sd - refStd vals| ≤ 1/20 ∧
        (sd ≠ 0 → s.current_z_score
          = some (round1 (((vals.headD 0 - s.mean : ℚ) : ℝ) / sd))) ∧
        (sd = 0 → s.current_z_score = none)) ∧
      (s.std = none → s.current_z_score = none) := by
  subst hvals
  have heq : calculate_pe_distribution_stats f c = StatsResult.ok (statsOf (cleanPF col)) := by
    unfold calculate_pe_distribution_stats
    rw [if_neg (by rw [hemp]; exact Bool.false_ne_true), if_pos hc, hcol]
    simp only [Option.getD_some]
    rw [if_neg (by simpa [List.length_eq_zero] using hne)]
  have hstd_pos : ∀ h2 : 2 ≤ (cleanPF col).length,
      (statsOf (cleanPF col)).std = some (round1 (refStd (cleanPF col))) := by
    intro h2
    show (if 2 ≤ (cleanPF col).length
      then some (round1 (Real.sqrt ((seriesVar (cleanPF col) : ℚ) : ℝ))) else none) = _
    rw [if_pos h2]
    rfl
  have hstd_neg : ∀ hn2 : ¬ 2 ≤ (cleanPF col).length,
      (statsOf (cleanPF col)).std = none := by
    intro hn2
    show (if 2 ≤ (cleanPF col).length
      then some (round1 (Real.sqrt ((seriesVar (cleanPF col) : ℚ) : ℝ))) else none) = _
    rw [if_neg hn2]
  have hsne : sortQ (cleanPF col) ≠ [] := by
    intro h
    apply hne
    have := (sortQ_perm (cleanPF col)).length_eq
    rw [h] at this
    exact List.length_eq_zero.mp this.symm
  refine ⟨statsOf (cleanPF col), heq, rfl, rfl, rfl, rfl, ?_, ?_, ?_, ?_, rfl,
    abs_round1_sub_le _, ?_, ?_⟩
  · intro h2
    constructor
    · show (if 2 ≤ (cleanPF col).length
        then some (round1 (seriesVar (cleanPF col))) else none) = _
      rw [if_pos h2]
      rfl
    · exact hstd_pos h2
  · intro h1
    constructor
    · show (if 2 ≤ (cleanPF col).length
        then some (round1 (seriesVar (cleanPF col))) else none) = _
      rw [if_neg (by omega)]
    · exact hstd_neg (by omega)
  · intro hm2
    constructor
    · show (if centralMoment (cleanPF col) 2 = 0 then none
        else some (round1 (((centralMoment (cleanPF col) 3 : ℚ) : ℝ)
          / Real.sqrt (((centralMoment (cleanPF col) 2 : ℚ) : ℝ) ^ 3)))) = _
      rw [if_neg hm2]
      rfl
    · show (if centralMoment (cleanPF col) 2 = 0 then none
        else some (round1 (centralMoment (cleanPF col) 4
          / centralMoment (cleanPF col) 2 ^ 2 - 3))) = _
      rw [if_neg hm2]
      rfl
  · refine ⟨(sortQ (cleanPF col)).headD 0, (sortQ (cleanPF col)).getLastD 0,
      ?_, ?_, ?_, ?_, rfl, rfl, rfl⟩
    · exact (sortQ_perm (cleanPF col)).mem_iff.mp (headD_mem hsne 0)
    · exact (sortQ_perm (cleanPF col)).mem_iff.mp (getLastD_mem hsne 0)
    · intro y hy
      exact sorted_headD_le (sortQ_sorted (cleanPF col))
        ((sortQ_perm (cleanPF col)).mem_iff.mpr hy) 0
    · intro y hy
      exact sorted_le_getLastD (sortQ_sorted (cleanPF col))
        ((sortQ_perm (cleanPF col)).mem_iff.mpr hy) 0
  · intro sd hsd
    by_cases h2 : 2 ≤ (cleanPF col).length
    · have hval : sd = round1 (refStd (cleanPF col)) := by
        have := (hstd_pos h2).symm.trans hsd
        exact (Option.some_inj.mp this).symm
      subst hval
      refine ⟨abs_round1_sub_le _, ?_, ?_⟩
      · intro hsd0
        show (match (if 2 ≤ (cleanPF col).length
            then some (round1 (Real.sqrt ((seriesVar (cleanPF col) : ℚ) : ℝ))) else none) with
          | some s => if s = 0 then none
              else some (round1 ((((cleanPF col).headD 0 : ℚ)
                - (round1 (seriesMean (cleanPF col)) : ℚ) : ℚ) / s))
          | none => none) = _
        rw [if_pos h2]
        exact if_neg hsd0
      · intro hsd0
        show (match (if 2 ≤ (cleanPF col).length
            then some (round1 (Real.sqrt ((seriesVar (cleanPF col) : ℚ) : ℝ))) else none) with
          | some s => if s = 0 then none
              else some (round1 ((((cleanPF col).headD 0 : ℚ)
                - (round1 (seriesMean (cleanPF col)) : ℚ) : ℚ) / s))
          | none => none) = none
        rw [if_pos h2]
        exact if_pos hsd0
    · exact absurd ((hstd_neg h2).symm.trans hsd) (by simp)
  · intro hnone
    by_cases h2 : 2 ≤ (cleanPF col).length
    · exact absurd ((hstd_pos h2).symm.trans hnone) (by simp)
    · show (match (if 2 ≤ (cleanPF col).length
          then some (round1 (Real.sqrt ((seriesVar (cleanPF col) : ℚ) : ℝ))) else none) with
        | some s => if s = 0 then none
            else some (round1 ((((cleanPF col).headD 0 : ℚ)
              - (round1 (seriesMean (cleanPF col)) : ℚ) : ℚ) / s))
        | none => none) = none
      rw [if_neg h2]

/-- C6, instantiated on the synthetic series `[1, 3, 5]` (newest first). -/
theorem c6_stats_match_reference_witness :
    ∃ s : StatsOut, calculate_pe_distribution_stats
        [("PEtrailing", [PF.num 1, PF.num 3, PF.num 5])] "PEtrailing"
        = StatsResult.ok s ∧
      s.count = [(1 : ℚ), 3, 5].length ∧
      s.current_pe = round1 ([(1 : ℚ), 3, 5].headD 0) ∧
      s.mean = round1 (refMean [1, 3, 5]) ∧
      s.median = round1 (refMedian [1, 3, 5]) ∧
      (2 ≤ [(1 : ℚ), 3, 5].length →
        s.var = some (round1 (refVar [1, 3, 5])) ∧
        s.std = some (round1 (refStd [1, 3, 5]))) ∧
      ([(1 : ℚ), 3, 5].length = 1 → s.var = none ∧ s.std = none) ∧
      (centralMoment [1, 3, 5] 2 ≠ 0 →
        s.skewness = some (round1 (refSkew [1, 3, 5])) ∧
        s.kurtosis = some (round1 (refKurt [1, 3, 5]))) ∧
      (∃ m M : ℚ, m ∈ [(1 : ℚ), 3, 5] ∧ M ∈ [(1 : ℚ), 3, 5] ∧
        (∀ y ∈ [(1 : ℚ), 3, 5], m ≤ y) ∧ (∀ y ∈ [(1 : ℚ), 3, 5], y ≤ M) ∧
        s.minV = round1 m ∧ s.maxV = round1 M ∧ s.rangeV = round1 (M - m)) ∧
      s.percentiles
        = pePercentList.map (fun p => (p, round1 (refPercentile [1, 3, 5] p))) ∧
      |s.mean - refMean [1, 3, 5]| ≤ 1/20 ∧
      (∀ sd : ℝ, s.std = some sd → |sd - refStd [1, 3, 5]| ≤ 1/20 ∧
        (sd ≠ 0 → s.current_z_score
          = some (round1 ((([(1 : ℚ), 3, 5].headD 0 - s.mean : ℚ) : ℝ) / sd))) ∧
        (sd = 0 → s.current_z_score = none)) ∧
      (s.std = none → s.current_z_score = none) :=
  c6_stats_match_reference [("PEtrailing", [PF.num 1, PF.num 3, PF.num 5])]
    "PEtrailing" [PF.num 1, PF.num 3, PF.num 5] [1, 3, 5]
    (by decide) (by decide) rfl rfl (by decide)
